import Mathlib

/-!
Verification of the client-side kanban pipeline reconciliation engine of the
follow-up board (`FollowUpPage`).

The definitions below are a shallow embedding of the stateful React component:
each event handler becomes a pure function from its inputs (current stores,
user input, and the outcome of the remote call it issues) to the resulting
stores, the notifications it shows, and whether a remote request was sent.
JavaScript falsiness of optional string fields (`undefined`, `null`, `""`)
is modelled by `Option String` together with the `truthy` test; `"" `is kept
as a possible `some` value so that expressions like `!b.stageId` and
`b.stageId === id` are translated exactly.

`Array.prototype.sort` with the comparator `(a, b) => pB - pA` is a stable
sort on a total preorder, so its output is uniquely determined; it is
modelled by the stable insertion sort `sortBills` on the same rank function.
-/

namespace FollowUp

/-- A pipeline stage as delivered by `GET /api/stages`: server id and display
name; its position is its index in the stage list. -/
structure Stage where
  _id : String
  name : String
  deriving DecidableEq, Repr

/-- A bill record as used by the pipeline: server id, optional stage
reference, optional priority string, and status.  Display-only fields of the
source (amounts, dates, notes) are opaque to the engine and omitted. -/
structure Bill where
  _id : String
  stageId : Option String
  priority : Option String
  status : String
  deriving DecidableEq, Repr

/-- JavaScript truthiness of an optional string: `undefined`/`null`/`""` are
falsy, every other string is truthy. -/
def truthy : Option String → Bool
  | none => false
  | some s => s != ""

/-- A SweetAlert notification: icon/severity, title, text. -/
structure Notification where
  icon : String
  title : String
  text : String
  deriving DecidableEq, Repr

/-! ### Partition & Sort Engine (`getBillsForStage`, lines 259-278) -/

/-- `(a.priority || "none")`: falsy priority falls back to the string
`"none"`. -/
def priorityOrNone : Option String → String
  | none => "none"
  | some s => if s == "" then "none" else s

/-- The `priorities` lookup object `{ p1: 3, p2: 2, p3: 1, none: 0 }`
composed with the trailing `|| 0`: a missing key yields `undefined || 0 = 0`
and the `"none"` key yields `0 || 0 = 0`, so both collapse to 0. -/
def priorities (s : String) : Nat :=
  if s == "p1" then 3 else if s == "p2" then 2 else if s == "p3" then 1 else 0

/-- `.toLowerCase()`: character-wise lower-casing of the string. -/
def strToLower (s : String) : String :=
  ⟨s.data.map Char.toLower⟩

/-- `priorities[(x.priority || "none").toLowerCase()] || 0`. -/
def priorityRank (p : Option String) : Nat :=
  priorities (strToLower (priorityOrNone p))

/-- Rank of a bill, as computed inside the sort comparator. -/
def billRank (b : Bill) : Nat := priorityRank b.priority

/-- Stable insertion of `x` into a list already sorted by descending
`billRank`: `x` stays in front of every element of rank `≤` its own, so
elements of equal rank keep their original relative order. -/
def insertBill (x : Bill) : List Bill → List Bill
  | [] => [x]
  | y :: ys => if billRank y ≤ billRank x then x :: y :: ys else y :: insertBill x ys

/-- The stable descending sort performed by
`stageBills.sort((a, b) => pB - pA)`. -/
def sortBills : List Bill → List Bill
  | [] => []
  | x :: xs => insertBill x (sortBills xs)

/-- The four priority buckets of a bill list in descending rank order, each
bucket keeping its input order.  Concatenating the equal-rank groups in
input order, highest rank first, is precisely the unique output of a stable
descending-by-rank sort, so `sortBills l = billBuckets l` expresses both the
descending ordering and the stability of the source's comparator sort. -/
def billBuckets (l : List Bill) : List Bill :=
  l.filter (fun b => billRank b == 3) ++ (l.filter (fun b => billRank b == 2) ++
    (l.filter (fun b => billRank b == 1) ++ l.filter (fun b => billRank b == 0)))

/-- `stages.length > 0 && stages[0]._id === stageId`. -/
def isFirstStage (stages : List Stage) (stageId : String) : Bool :=
  match stages with
  | [] => false
  | s :: _ => s._id == stageId

/-- The filter predicate of step 1 of `getBillsForStage`:
`b.stageId === stageId || (isFirstStage && !b.stageId)`. -/
def stageMatch (stages : List Stage) (stageId : String) (b : Bill) : Bool :=
  (b.stageId == some stageId) || (isFirstStage stages stageId && !(truthy b.stageId))

/-- Steps 1 and 2 of `getBillsForStage`: select the stage's bills, then apply
the global priority filter (strict `===` comparison against the filter
value). -/
def stageFilteredBills (stages : List Stage) (bills : List Bill)
    (globalFilter : String) (stageId : String) : List Bill :=
  let stageBills := bills.filter (stageMatch stages stageId)
  if globalFilter != "all" then
    stageBills.filter (fun b => b.priority == some globalFilter)
  else stageBills

/-- `getBillsForStage` (lines 259-278): filter, globally filter, then sort
descending by priority rank. -/
def getBillsForStage (stages : List Stage) (bills : List Bill)
    (globalFilter : String) (stageId : String) : List Bill :=
  sortBills (stageFilteredBills stages bills globalFilter stageId)

/-- Merging every stage's rendered column, in stage order: the aggregate the
spec's partition property quantifies over. -/
def boardJoin (stages : List Stage) (bills : List Bill)
    (globalFilter : String) : List Bill :=
  (stages.map (fun s => getBillsForStage stages bills globalFilter s._id)).flatten

/-! ### Drag Gesture Controller (`onDragEnd`, lines 188-213) -/

/-- One endpoint of a drag: `{ droppableId, index }`. -/
structure DropPos where
  droppableId : String
  index : Nat
  deriving DecidableEq, Repr

/-- The `result` object handed to `onDragEnd` by the drag-and-drop host. -/
structure DragResult where
  destination : Option DropPos
  source : DropPos
  draggableId : String
  deriving DecidableEq, Repr

/-- Outcome of `onDragEnd`: the bill store after the handler, whether a
remote `PUT /api/bills/:id` was issued, and the notifications shown. -/
structure DragEndResult where
  bills : List Bill
  requestSent : Bool
  notifications : List Notification
  deriving DecidableEq, Repr

/-- `onDragEnd` (lines 188-213).  `remoteOk` is the outcome of the remote
call when one is issued; the `catch` branch of the source only calls
`console.error`, so no notification is produced on failure. -/
def onDragEnd (result : DragResult) (bills : List Bill) (remoteOk : Bool) :
    DragEndResult :=
  match result.destination with
  | none => ⟨bills, false, []⟩
  | some destination =>
    if destination.droppableId == result.source.droppableId &&
        destination.index == result.source.index then
      ⟨bills, false, []⟩
    else
      let newStageId := destination.droppableId
      let updatedBills := bills.map (fun b =>
        if b._id == result.draggableId then { b with stageId := some newStageId } else b)
      if remoteOk then ⟨updatedBills, true, []⟩
      else ⟨updatedBills, true, []⟩

/-! ### Optimistic Mutation Coordinator (lines 39-176) -/

/-- Outcome of a stage-store mutation. -/
structure StageOpResult where
  stages : List Stage
  requestSent : Bool
  notifications : List Notification
  deriving DecidableEq, Repr

/-- `handleAddStage` (lines 39-59).  `nameInput` is the dialog result
(`none` models a cancelled dialog, `some ""` an empty submission — both are
falsy); `remote` is the server's response to `POST /api/stages`: the created
stage on success, `none` on failure.  The local list is only extended with
the server-returned stage, after the response. -/
def handleAddStage (nameInput : Option String) (stages : List Stage)
    (remote : Option Stage) : StageOpResult :=
  if !(truthy nameInput) then ⟨stages, false, []⟩
  else
    match remote with
    | some srv =>
        ⟨stages ++ [srv], true, [⟨"success", "Created!", "New stage has been added."⟩]⟩
    | none => ⟨stages, true, [⟨"error", "Error!", "Failed to create stage."⟩]⟩

/-- `handleEditStage` (lines 62-81): abort on falsy or unchanged name;
otherwise remote update then local rename. -/
def handleEditStage (id currentName : String) (nameInput : Option String)
    (stages : List Stage) (remoteOk : Bool) : StageOpResult :=
  if !(truthy nameInput) || nameInput == some currentName then ⟨stages, false, []⟩
  else
    let name := nameInput.getD ""
    if remoteOk then
      ⟨stages.map (fun s => if s._id == id then { s with name := name } else s), true,
        [⟨"success", "Updated!", "Stage name has been updated."⟩]⟩
    else ⟨stages, true, [⟨"error", "Error!", "Failed to update stage."⟩]⟩

/-- `stages.findIndex(s => s._id === id)`, with JavaScript's `-1` for
"not found" modelled as `none`. -/
def findIndexOpt (p : Stage → Bool) : List Stage → Option Nat
  | [] => none
  | s :: rest => if p s then some 0 else (findIndexOpt p rest).map (fun n => n + 1)

/-- The fallback computation of lines 96-104: `stageIndex > 0 ?
stages[stageIndex-1]._id : (stages.length > 1 ? stages[stageIndex+1]._id :
null)`.  When the id is absent, JavaScript's `stageIndex = -1` makes
`stageIndex > 0` false and `stages[stageIndex+1]` the head; both
out-of-range branches are unreachable on found indices. -/
def deleteStageFallback (stages : List Stage) (id : String) : Option String :=
  match findIndexOpt (fun s => s._id == id) stages with
  | some i =>
      if i > 0 then (stages.get? (i - 1)).map Stage._id
      else if stages.length > 1 then (stages.get? (i + 1)).map Stage._id
      else none
  | none =>
      if stages.length > 1 then (stages.get? 0).map Stage._id
      else none

/-- Outcome of `handleDeleteStage`: resulting stores, whether the remote
delete was issued, whether a full refetch was triggered, and the
notifications shown. -/
structure DeleteStageResult where
  stages : List Stage
  bills : List Bill
  requestSent : Bool
  refetch : Bool
  notifications : List Notification
  deriving DecidableEq, Repr

/-- `handleDeleteStage` (lines 84-127): after the confirm dialog, compute
the fallback stage, optimistically reattribute the deleted stage's bills to
it and drop the stage locally, then issue the remote delete; on failure
restore the previous stage list and refetch. -/
def handleDeleteStage (id : String) (stages : List Stage) (bills : List Bill)
    (confirmed : Bool) (remoteOk : Bool) : DeleteStageResult :=
  if !confirmed then ⟨stages, bills, false, false, []⟩
  else
    let fallbackStageId := deleteStageFallback stages id
    let updatedBills := bills.map (fun b =>
      if b.stageId == some id then { b with stageId := fallbackStageId } else b)
    let previousStages := stages
    let newStages := stages.filter (fun s => s._id != id)
    if remoteOk then
      ⟨newStages, updatedBills, true, false,
        [⟨"success", "Deleted!", "Stage has been deleted."⟩]⟩
    else
      ⟨previousStages, updatedBills, true, true,
        [⟨"error", "Error!", "Failed to delete stage."⟩]⟩

/-- `updatePriority` (lines 130-150): optimistic local update, then the
remote call; on failure only a toast is shown, the optimistic state stays.
Returns (bill store, notifications). -/
def updatePriority (billId newPriority : String) (bills : List Bill)
    (remoteOk : Bool) : List Bill × List Notification :=
  let updated := bills.map (fun b =>
    if b._id == billId then { b with priority := some newPriority } else b)
  if remoteOk then (updated, [])
  else (updated, [⟨"error", "Update Failed", "Could not update priority"⟩])

/-- Outcome of `updateStatus`: bill store, selected-bill state,
notifications. -/
structure UpdateStatusResult where
  bills : List Bill
  selectedBill : Option Bill
  notifications : List Notification
  deriving DecidableEq, Repr

/-- `updateStatus` (lines 153-176): the remote call is awaited first, the
local stores are touched only inside the `try` after it succeeds. -/
def updateStatus (billId newStatus : String) (bills : List Bill)
    (selectedBill : Option Bill) (remoteOk : Bool) : UpdateStatusResult :=
  if !remoteOk then
    ⟨bills, selectedBill, [⟨"error", "Error", "Could not update status"⟩]⟩
  else if newStatus == "inprocess" then
    ⟨bills.map (fun b => if b._id == billId then { b with status := newStatus } else b),
      selectedBill.map (fun p => { p with status := newStatus }), []⟩
  else
    ⟨bills.filter (fun b => b._id != billId), none,
      [⟨"success", "Status Updated", "Bill moved to " ++ newStatus⟩]⟩

/-! ### Auto-Scroll Controller (lines 216-256) -/

/-- The shared mutable cells read and written by the auto-scroll effect:
`isDraggingRef`, the presence of `scrollContainerRef`, `autoScrollSpeedRef`,
and the container's `scrollLeft`. -/
structure AutoScrollState where
  isDragging : Bool
  hasContainer : Bool
  autoScrollSpeed : ℚ
  scrollLeft : ℚ
  deriving DecidableEq, Repr

/-- `handleMouseMove` (lines 228-246) as a function from the pointer
position and the current speed cell to the new speed cell: an early return
when no drag is active or the container ref is null leaves the cell
unchanged; otherwise the speed is recomputed from the distance into the
250px edge zones, scaled to the maximum magnitude 25. -/
def handleMouseMove (isDragging hasContainer : Bool) (clientX innerWidth : ℚ)
    (speed : ℚ) : ℚ :=
  if !isDragging || !hasContainer then speed
  else
    let edgeThreshold : ℚ := 250
    let maxSpeed : ℚ := 25
    if clientX < edgeThreshold then
      -(maxSpeed * ((edgeThreshold - clientX) / edgeThreshold))
    else if clientX > innerWidth - edgeThreshold then
      maxSpeed * ((clientX - (innerWidth - edgeThreshold)) / edgeThreshold)
    else 0

/-- A `mousemove` event applied to the shared state. -/
def mouseMoveStep (clientX innerWidth : ℚ) (st : AutoScrollState) :
    AutoScrollState :=
  { st with autoScrollSpeed :=
      handleMouseMove st.isDragging st.hasContainer clientX innerWidth st.autoScrollSpeed }

/-- One animation frame of `handleAutoScroll` (lines 219-226): the offset
moves only when a drag is active, the container exists and the stored speed
is nonzero. -/
def handleAutoScroll (st : AutoScrollState) : AutoScrollState :=
  if st.isDragging && st.hasContainer && st.autoScrollSpeed != 0 then
    { st with scrollLeft := st.scrollLeft + st.autoScrollSpeed }
  else st

/-! ### Helper lemmas: the stable sort and its bucket characterization -/

theorem priorities_le_three (s : String) : priorities s ≤ 3 := by
  simp only [priorities]
  split
  · omega
  split
  · omega
  split
  · omega
  · omega

theorem billRank_le_three (b : Bill) : billRank b ≤ 3 :=
  priorities_le_three _

theorem mem_filter_rank {l : List Bill} {k : Nat} {a : Bill}
    (h : a ∈ l.filter (fun b => billRank b == k)) : billRank a = k := by
  have h2 := (List.mem_filter.mp h).2
  simpa using h2

theorem insertBill_of_le (x : Bill) (B : List Bill)
    (hB : ∀ b ∈ B, billRank b ≤ billRank x) :
    insertBill x B = x :: B := by
  cases B with
  | nil => rfl
  | cons b bs =>
    simp only [insertBill]
    rw [if_pos (hB b (List.mem_cons_self b bs))]

theorem insertBill_skip (x : Bill) (tail : List Bill) :
    ∀ A : List Bill, (∀ a ∈ A, ¬ billRank a ≤ billRank x) →
      insertBill x (A ++ tail) = A ++ insertBill x tail := by
  intro A
  induction A with
  | nil => intro _; rfl
  | cons a A ih =>
    intro hA
    simp only [List.cons_append, insertBill, List.append_eq]
    rw [if_neg (hA a (List.mem_cons_self a A)),
      ih (fun a' ha' => hA a' (List.mem_cons_of_mem _ ha'))]

theorem sortBills_eq_buckets (l : List Bill) : sortBills l = billBuckets l := by
  induction l with
  | nil => rfl
  | cons x xs ih =>
    have hx := billRank_le_three x
    have hcase : billRank x = 0 ∨ billRank x = 1 ∨ billRank x = 2 ∨ billRank x = 3 := by
      omega
    simp only [sortBills, ih, billBuckets]
    rcases hcase with h | h | h | h
    · rw [insertBill_skip x _ _ (fun a ha => by rw [mem_filter_rank ha, h]; omega),
        insertBill_skip x _ _ (fun a ha => by rw [mem_filter_rank ha, h]; omega),
        insertBill_skip x _ _ (fun a ha => by rw [mem_filter_rank ha, h]; omega),
        insertBill_of_le x _ (fun b hb => by rw [mem_filter_rank hb, h])]
      simp [List.filter_cons, h]
    · rw [insertBill_skip x _ _ (fun a ha => by rw [mem_filter_rank ha, h]; omega),
        insertBill_skip x _ _ (fun a ha => by rw [mem_filter_rank ha, h]; omega),
        insertBill_of_le x _ (fun b hb => by
          simp only [List.mem_append] at hb
          rcases hb with hb | hb <;> (rw [mem_filter_rank hb, h]; try omega))]
      simp [List.filter_cons, h]
    · rw [insertBill_skip x _ _ (fun a ha => by rw [mem_filter_rank ha, h]; omega),
        insertBill_of_le x _ (fun b hb => by
          simp only [List.mem_append] at hb
          rcases hb with hb | hb | hb <;> rw [mem_filter_rank hb, h] <;> omega)]
      simp [List.filter_cons, h]
    · rw [insertBill_of_le x _ (fun b hb => by
          simp only [List.mem_append] at hb
          rcases hb with hb | hb | hb | hb <;> rw [mem_filter_rank hb, h] <;> omega)]
      simp [List.filter_cons, h]

theorem mem_sortBills {b : Bill} {l : List Bill} : b ∈ sortBills l ↔ b ∈ l := by
  rw [sortBills_eq_buckets]
  simp only [billBuckets, List.mem_append, List.mem_filter, beq_iff_eq]
  constructor
  · rintro (⟨hb, _⟩ | ⟨hb, _⟩ | ⟨hb, _⟩ | ⟨hb, _⟩) <;> exact hb
  · intro hb
    have h3 := billRank_le_three b
    have hcase : billRank b = 0 ∨ billRank b = 1 ∨ billRank b = 2 ∨ billRank b = 3 := by
      omega
    rcases hcase with h | h | h | h <;> simp [hb, h]

theorem count_filter_eq {α : Type} [DecidableEq α] (p : α → Bool) (a : α)
    (l : List α) :
    (l.filter p).count a = if p a then l.count a else 0 := by
  induction l with
  | nil => simp
  | cons x xs ih =>
    rw [List.filter_cons]
    by_cases hax : a = x
    · subst hax
      by_cases hpx : p a
      · simp [hpx, List.count_cons, ih]
      · simp [hpx, List.count_cons, ih]
    · have hbe : (a == x) = false := by simp [hax]
      by_cases hpx : p x
      · simp [hpx, List.count_cons, hbe, ih, hax]
      · simp [hpx, List.count_cons, hbe, ih, hax]

theorem count_sortBills (b : Bill) (l : List Bill) :
    (sortBills l).count b = l.count b := by
  rw [sortBills_eq_buckets]
  simp only [billBuckets, List.count_append]
  rw [count_filter_eq, count_filter_eq, count_filter_eq, count_filter_eq]
  have h3 := billRank_le_three b
  have hcase : billRank b = 0 ∨ billRank b = 1 ∨ billRank b = 2 ∨ billRank b = 3 := by
    omega
  rcases hcase with h | h | h | h <;> simp [h]

theorem count_flatten_map {α β : Type} [DecidableEq α] (f : β → List α)
    (L : List β) (a : α) :
    ((L.map f).flatten).count a = (L.map (fun s => (f s).count a)).sum := by
  induction L with
  | nil => rfl
  | cons s L ih => simp [List.count_append, ih]

theorem sum_map_ite_zero {β : Type} (p : β → Bool) (c : Nat) :
    ∀ L : List β, (∀ s ∈ L, p s = false) →
      (L.map (fun s => if p s then c else 0)).sum = 0 := by
  intro L
  induction L with
  | nil => intro _; rfl
  | cons s L ih =>
    intro h
    simp only [List.map_cons, List.sum_cons, h s (List.mem_cons_self s L)]
    simpa using ih (fun s' hs' => h s' (List.mem_cons_of_mem _ hs'))

theorem sum_map_ite_one {β : Type} (p : β → Bool) (c : Nat) :
    ∀ L : List β, L.countP p = 1 →
      (L.map (fun s => if p s then c else 0)).sum = c := by
  intro L
  induction L with
  | nil => intro h; simp at h
  | cons s L ih =>
    intro h
    rw [List.countP_cons] at h
    by_cases hp : p s = true
    · rw [if_pos hp] at h
      have h0 : L.countP p = 0 := by omega
      have hall : ∀ s' ∈ L, p s' = false := by
        intro s' hs'
        have hns := List.countP_eq_zero.mp h0 s' hs'
        simpa using hns
      simp [hp, sum_map_ite_zero p c L hall]
    · have hpf : p s = false := by simpa using hp
      rw [if_neg hp] at h
      have h1 : L.countP p = 1 := by omega
      simp [hpf, ih h1]

theorem countP_beq_id (i : String) :
    ∀ l : List Stage, (l.map Stage._id).Nodup →
      l.countP (fun s => i == s._id) = if i ∈ l.map Stage._id then 1 else 0 := by
  intro l
  induction l with
  | nil => intro _; simp
  | cons s l ih =>
    intro hnd
    simp only [List.map_cons, List.nodup_cons] at hnd
    obtain ⟨hnotmem, hnd'⟩ := hnd
    by_cases hi : i = s._id
    · have hall : ∀ a ∈ l, ¬ s._id = a._id := by
        intro a hal heq
        apply hnotmem
        rw [heq]
        exact List.mem_map_of_mem Stage._id hal
      simp [List.countP_cons, hi, hall]
      exact hall
    · have := ih hnd'
      simp [List.countP_cons, hi, this, Ne.symm hi]

theorem count_getBillsForStage_all (stages : List Stage) (bills : List Bill)
    (sid : String) (b : Bill) :
    (getBillsForStage stages bills "all" sid).count b =
      if stageMatch stages sid b then bills.count b else 0 := by
  unfold getBillsForStage stageFilteredBills
  rw [count_sortBills]
  simp only [bne_self_eq_false, Bool.false_eq_true, if_false]
  exact count_filter_eq _ b bills

theorem mem_getBillsForStage_all (stages : List Stage) (bills : List Bill)
    (sid : String) (b : Bill) :
    b ∈ getBillsForStage stages bills "all" sid ↔
      b ∈ bills ∧ stageMatch stages sid b = true := by
  unfold getBillsForStage stageFilteredBills
  rw [mem_sortBills]
  simp only [bne_self_eq_false, Bool.false_eq_true, if_false]
  exact List.mem_filter

theorem bill_with_stageId_eq (b : Bill) (x : Option String)
    (h : b.stageId = x) : { b with stageId := x } = b := by
  cases b
  cases h
  rfl

theorem map_eq_self_of (f : Bill → Bill) :
    ∀ l : List Bill, (∀ a ∈ l, f a = a) → l.map f = l := by
  intro l
  induction l with
  | nil => intro _; rfl
  | cons a l ih =>
    intro h
    simp only [List.map_cons, h a (List.mem_cons_self a l),
      ih (fun a' ha' => h a' (List.mem_cons_of_mem _ ha'))]

/-! ### Claim C1: the partition computed by `getBillsForStage` under `all` -/

/-- Claim C1, counterexample: a record with a dangling `stageId` (present,
but referencing no existing stage) is NOT attributed to the first stage: it
appears in no stage's list, and merging every stage's list loses it.  Here
the sole record references the non-existent stage `s2`, the only stage is
`s1`, and both the first stage's list and the whole merge are empty. -/
theorem c1_counterexample :
    boardJoin [⟨"s1", "Stage 1"⟩] [⟨"r1", some "s2", none, "inprocess"⟩] "all" = [] ∧
      (⟨"r1", some "s2", none, "inprocess"⟩ : Bill) ∉
        getBillsForStage [⟨"s1", "Stage 1"⟩]
          [⟨"r1", some "s2", none, "inprocess"⟩] "all" "s1" := by
  decide

/-- Claim C1 (amended): under the `all` filter, for a non-empty stage list
with distinct non-empty ids, each occurrence of a record is assigned to
exactly one stage: to the stage its truthy `stageId` names when that stage
exists, to the first stage when its `stageId` is falsy (absent), and to no
stage at all when its `stageId` is dangling; hence the merge of all stage
lists holds each record exactly as often as the input does, except records
with dangling references, which are lost. -/
theorem c1_partition (s0 : Stage) (rest : List Stage) (bills : List Bill)
    (hnd : ((s0 :: rest).map Stage._id).Nodup)
    (hids : ∀ s ∈ s0 :: rest, s._id ≠ "") :
    (∀ b : Bill,
        (boardJoin (s0 :: rest) bills "all").count b =
          if truthy b.stageId = false ∨ ∃ s ∈ s0 :: rest, b.stageId = some s._id
          then bills.count b else 0)
    ∧ (∀ b ∈ bills, ∀ s ∈ s0 :: rest,
        (b ∈ getBillsForStage (s0 :: rest) bills "all" s._id ↔
          (b.stageId = some s._id ∨ (truthy b.stageId = false ∧ s._id = s0._id)))) := by
  constructor
  · intro b
    unfold boardJoin
    rw [count_flatten_map]
    rw [show ((s0 :: rest).map
        (fun s => (getBillsForStage (s0 :: rest) bills "all" s._id).count b)) =
        ((s0 :: rest).map
          (fun s => if stageMatch (s0 :: rest) s._id b then bills.count b else 0)) from
      congrArg (fun f => List.map f (s0 :: rest))
        (funext (fun s => count_getBillsForStage_all (s0 :: rest) bills s._id b))]
    by_cases htr : truthy b.stageId = false
    · rw [List.map_congr_left (fun s hs => by
        have hsm : stageMatch (s0 :: rest) s._id b = (s0._id == s._id) := by
          unfold stageMatch isFirstStage
          cases hbs : b.stageId with
          | none => simp [truthy]
          | some v =>
            have hv : v = "" := by
              rw [hbs] at htr
              simpa [truthy] using htr
            subst hv
            have hne : ¬ ("" : String) = s._id := fun he => hids s hs he.symm
            simp [truthy, hne]
        rw [hsm])]
      have hcp : (s0 :: rest).countP (fun s => s0._id == s._id) = 1 := by
        rw [countP_beq_id s0._id (s0 :: rest) hnd]
        have hm : s0._id ∈ (s0 :: rest).map Stage._id := by simp
        rw [if_pos hm]
      rw [sum_map_ite_one _ _ _ hcp, if_pos (Or.inl htr)]
    · have htr' : truthy b.stageId = true := by
        cases hv : truthy b.stageId
        · exact absurd hv htr
        · rfl
      obtain ⟨i, hbs⟩ : ∃ i, b.stageId = some i := by
        cases hbs : b.stageId with
        | none => rw [hbs] at htr'; simp [truthy] at htr'
        | some v => exact ⟨v, rfl⟩
      have htri : truthy (some i) = true := by rw [← hbs]; exact htr'
      rw [List.map_congr_left (fun s hs => by
        have hsm : stageMatch (s0 :: rest) s._id b = (i == s._id) := by
          unfold stageMatch isFirstStage
          rw [hbs]
          simp [htri]
        rw [hsm])]
      by_cases hmem : i ∈ (s0 :: rest).map Stage._id
      · have hcp : (s0 :: rest).countP (fun s => i == s._id) = 1 := by
          rw [countP_beq_id i (s0 :: rest) hnd, if_pos hmem]
        rw [sum_map_ite_one _ _ _ hcp]
        have hcond : truthy b.stageId = false ∨
            ∃ s ∈ s0 :: rest, b.stageId = some s._id := by
          right
          obtain ⟨s, hs, hsid⟩ := List.mem_map.mp hmem
          exact ⟨s, hs, by rw [hbs, hsid]⟩
        rw [if_pos hcond]
      · have hcp : (s0 :: rest).countP (fun s => i == s._id) = 0 := by
          rw [countP_beq_id i (s0 :: rest) hnd, if_neg hmem]
        have hall : ∀ s ∈ s0 :: rest, (i == s._id) = false := by
          intro s hs
          have hns := List.countP_eq_zero.mp hcp s hs
          simpa using hns
        rw [sum_map_ite_zero _ _ _ hall]
        have hcond : ¬ (truthy b.stageId = false ∨
            ∃ s ∈ s0 :: rest, b.stageId = some s._id) := by
          rintro (hf | ⟨s, hs, hsid⟩)
          · exact htr hf
          · apply hmem
            rw [hbs] at hsid
            injection hsid with hii
            rw [hii]
            exact List.mem_map_of_mem Stage._id hs
        rw [if_neg hcond]
  · intro b hb s hs
    rw [mem_getBillsForStage_all]
    simp only [hb, true_and]
    unfold stageMatch isFirstStage
    simp only [Bool.or_eq_true, Bool.and_eq_true, beq_iff_eq, Bool.not_eq_true']
    constructor
    · rintro (h1 | ⟨h2, h3⟩)
      · exact Or.inl h1
      · exact Or.inr ⟨h3, h2.symm⟩
    · rintro (h1 | ⟨h3, h2⟩)
      · exact Or.inl h1
      · exact Or.inr ⟨h2.symm, h3⟩

/-- Claim C1, witness: the amended partition theorem applied to the concrete
board with stages `s1, s2` and one record in `s1`, one unassigned and one in
`s2`. -/
theorem c1_partition_witness :
    ((([⟨"s1", "A"⟩, ⟨"s2", "B"⟩] : List Stage).map Stage._id).Nodup ∧
      ∀ s ∈ ([⟨"s1", "A"⟩, ⟨"s2", "B"⟩] : List Stage), s._id ≠ "") ∧
    ((∀ b : Bill,
        (boardJoin [⟨"s1", "A"⟩, ⟨"s2", "B"⟩]
          [⟨"r1", some "s1", none, "inprocess"⟩,
            ⟨"r2", none, none, "inprocess"⟩,
            ⟨"r3", some "s2", none, "inprocess"⟩] "all").count b =
          if truthy b.stageId = false ∨
              ∃ s ∈ ([⟨"s1", "A"⟩, ⟨"s2", "B"⟩] : List Stage), b.stageId = some s._id
          then ([⟨"r1", some "s1", none, "inprocess"⟩,
            ⟨"r2", none, none, "inprocess"⟩,
            ⟨"r3", some "s2", none, "inprocess"⟩] : List Bill).count b else 0)
    ∧ (∀ b ∈ ([⟨"r1", some "s1", none, "inprocess"⟩,
            ⟨"r2", none, none, "inprocess"⟩,
            ⟨"r3", some "s2", none, "inprocess"⟩] : List Bill),
        ∀ s ∈ ([⟨"s1", "A"⟩, ⟨"s2", "B"⟩] : List Stage),
        (b ∈ getBillsForStage [⟨"s1", "A"⟩, ⟨"s2", "B"⟩]
            [⟨"r1", some "s1", none, "inprocess"⟩,
              ⟨"r2", none, none, "inprocess"⟩,
              ⟨"r3", some "s2", none, "inprocess"⟩] "all" s._id ↔
          (b.stageId = some s._id ∨
            (truthy b.stageId = false ∧ s._id = (⟨"s1", "A"⟩ : Stage)._id))))) :=
  ⟨⟨by decide, by decide⟩,
    c1_partition ⟨"s1", "A"⟩ [⟨"s2", "B"⟩]
      [⟨"r1", some "s1", none, "inprocess"⟩,
        ⟨"r2", none, none, "inprocess"⟩,
        ⟨"r3", some "s2", none, "inprocess"⟩] (by decide) (by decide)⟩

/-! ### Claim C2: no-op behaviour of `onDragEnd` -/

/-- Claim C2, counterexample: a drop whose destination stage equals the
stage the dragged record is already assigned to (`s1`), but at a different
index (source index 0, destination index 1), is NOT a no-op: a remote
request is issued. -/
theorem c2_counterexample :
    (⟨"r1", some "s1", none, "inprocess"⟩ : Bill).stageId = some "s1" ∧
      (onDragEnd ⟨some ⟨"s1", 1⟩, ⟨"s1", 0⟩, "r1"⟩
        [⟨"r1", some "s1", none, "inprocess"⟩] true).requestSent = true := by
  decide

/-- Claim C2 (amended): a drop with no destination is a full no-op (no local
mutation, no remote request), and so is a drop whose destination equals the
source position exactly (same droppable id and same index); a drop whose
destination stage is the stage every matching record already carries, but at
a different position, leaves the record set unchanged in value yet still
issues a remote request. -/
theorem c2_dragEnd :
    (∀ (bills : List Bill) (src : DropPos) (did : String) (remoteOk : Bool),
        onDragEnd ⟨none, src, did⟩ bills remoteOk = ⟨bills, false, []⟩)
    ∧ (∀ (bills : List Bill) (src : DropPos) (did : String) (remoteOk : Bool),
        onDragEnd ⟨some src, src, did⟩ bills remoteOk = ⟨bills, false, []⟩)
    ∧ (∀ (bills : List Bill) (dest src : DropPos) (did : String) (remoteOk : Bool),
        dest ≠ src →
        (∀ b ∈ bills, b._id = did → b.stageId = some dest.droppableId) →
        onDragEnd ⟨some dest, src, did⟩ bills remoteOk = ⟨bills, true, []⟩) := by
  refine ⟨fun bills src did remoteOk => rfl, fun bills src did remoteOk => ?_, ?_⟩
  · simp [onDragEnd]
  · intro bills dest src did remoteOk hne hstage
    have hguard : (dest.droppableId == src.droppableId && dest.index == src.index) = false := by
      cases hg : (dest.droppableId == src.droppableId && dest.index == src.index)
      · rfl
      · exfalso
        apply hne
        have hg2 : dest.droppableId = src.droppableId ∧ dest.index = src.index := by
          simpa using hg
        cases dest
        cases src
        simp_all
    have hmap : bills.map (fun b =>
        if b._id == did then { b with stageId := some dest.droppableId } else b) = bills := by
      apply map_eq_self_of
      intro a ha
      by_cases hid : a._id = did
      · rw [if_pos (by simpa using hid)]
        exact bill_with_stageId_eq a _ (hstage a ha hid)
      · rw [if_neg (by simpa using hid)]
    simp only [onDragEnd, hguard, Bool.false_eq_true, if_false, hmap]
    cases remoteOk <;> rfl

/-- Claim C2, witness: the amended drag-end theorem applied to the concrete
same-stage, different-index drop of `r1` inside `s1`. -/
theorem c2_dragEnd_witness :
    ((⟨"s1", 1⟩ : DropPos) ≠ (⟨"s1", 0⟩ : DropPos) ∧
      ∀ b ∈ ([⟨"r1", some "s1", none, "inprocess"⟩] : List Bill),
        b._id = "r1" → b.stageId = some (⟨"s1", 1⟩ : DropPos).droppableId) ∧
    onDragEnd ⟨some ⟨"s1", 1⟩, ⟨"s1", 0⟩, "r1"⟩
        [⟨"r1", some "s1", none, "inprocess"⟩] false =
      ⟨[⟨"r1", some "s1", none, "inprocess"⟩], true, []⟩ :=
  ⟨⟨by decide, by decide⟩,
    c2_dragEnd.2.2 [⟨"r1", some "s1", none, "inprocess"⟩] ⟨"s1", 1⟩ ⟨"s1", 0⟩ "r1" false
      (by decide) (by decide)⟩

/-! ### Claim C3: failure surfacing of the mutation operations -/

/-- Claim C3, counterexample: the drag-end record move is a mutation whose
remote failure produces NO user-visible notification (the source's `catch`
only logs to the console), refuting that every operation's failure is
converted to a notification naming it. -/
theorem c3_counterexample :
    (onDragEnd ⟨some ⟨"s2", 0⟩, ⟨"s1", 0⟩, "r1"⟩
        [⟨"r1", some "s1", none, "inprocess"⟩] false).requestSent = true ∧
      (onDragEnd ⟨some ⟨"s2", 0⟩, ⟨"s1", 0⟩, "r1"⟩
        [⟨"r1", some "s1", none, "inprocess"⟩] false).notifications = [] := by
  decide

/-- Claim C3 (amended): every mutation operation catches its remote failure
(each handler below is total, mirroring the source's `try`/`catch` around
every remote call, so no failure propagates), and every operation except
the drag-end record move converts the failure into a user-visible
notification naming the failed operation; the drag-end move reports its
failure only to the console and shows the user nothing. -/
theorem c3_failureNotifications :
    (∀ (id p : String) (bills : List Bill),
        (updatePriority id p bills false).2 =
          [⟨"error", "Update Failed", "Could not update priority"⟩])
    ∧ (∀ (id st : String) (bills : List Bill) (sel : Option Bill),
        (updateStatus id st bills sel false).notifications =
          [⟨"error", "Error", "Could not update status"⟩])
    ∧ (∀ (name : Option String) (stages : List Stage), truthy name = true →
        (handleAddStage name stages none).notifications =
          [⟨"error", "Error!", "Failed to create stage."⟩])
    ∧ (∀ (id cur : String) (name : Option String) (stages : List Stage),
        truthy name = true → name ≠ some cur →
        (handleEditStage id cur name stages false).notifications =
          [⟨"error", "Error!", "Failed to update stage."⟩])
    ∧ (∀ (id : String) (stages : List Stage) (bills : List Bill),
        (handleDeleteStage id stages bills true false).notifications =
          [⟨"error", "Error!", "Failed to delete stage."⟩])
    ∧ (∀ (result : DragResult) (bills : List Bill),
        (onDragEnd result bills false).notifications = []) := by
  refine ⟨fun id p bills => rfl, fun id st bills sel => rfl, ?_, ?_, fun id stages bills => rfl, ?_⟩
  · intro name stages hname
    simp [handleAddStage, hname]
  · intro id cur name stages hname hne
    have hbe : (name == some cur) = false := by
      cases hb : name == some cur
      · rfl
      · exact absurd (by simpa using hb) hne
    simp [handleEditStage, hname, hbe]
  · intro result bills
    unfold onDragEnd
    rcases result with ⟨dest, src, did⟩
    cases dest with
    | none => rfl
    | some d =>
      simp only
      split
      · rfl
      · rfl

/-- Claim C3, witness: the amended failure-surfacing theorem applied to a
concrete failing stage creation and a concrete failing stage rename. -/
theorem c3_failureNotifications_witness :
    (truthy (some "Stage X") = true ∧ some "New" ≠ some "Old") ∧
    (handleAddStage (some "Stage X") [] none).notifications =
        [⟨"error", "Error!", "Failed to create stage."⟩] ∧
      (handleEditStage "s1" "Old" (some "New") [] false).notifications =
        [⟨"error", "Error!", "Failed to update stage."⟩] :=
  ⟨⟨by decide, by decide⟩,
    c3_failureNotifications.2.2.1 (some "Stage X") [] (by decide),
    c3_failureNotifications.2.2.2.1 "s1" "Old" (some "New") [] (by decide) (by decide)⟩

/-! ### Claim C4: `deleteStage` fallback computation and reattribution -/

theorem findIndexOpt_append_cons (p : Stage → Bool) (x : Stage) (B : List Stage)
    (hx : p x = true) :
    ∀ A : List Stage, (∀ a ∈ A, p a = false) →
      findIndexOpt p (A ++ x :: B) = some A.length := by
  intro A
  induction A with
  | nil => intro _; simp [findIndexOpt, hx]
  | cons a A ih =>
    intro hA
    simp [findIndexOpt, hA a (List.mem_cons_self a A),
      ih (fun a' h => hA a' (List.mem_cons_of_mem _ h))]

theorem get?_pred_append (x : Stage) (post : List Stage) :
    ∀ pre : List Stage, pre ≠ [] →
      (pre ++ x :: post).get? (pre.length - 1) = pre.getLast? := by
  intro pre
  induction pre with
  | nil => intro h; exact absurd rfl h
  | cons a pre ih =>
    intro _
    cases pre with
    | nil => simp
    | cons b pre' =>
      have h2 := ih (by simp)
      simp only [List.cons_append] at h2 ⊢
      rw [List.getLast?_cons_cons]
      have hl : (a :: b :: pre' : List Stage).length - 1 =
          ((b :: pre' : List Stage).length - 1) + 1 := by
        simp only [List.length_cons]
        omega
      rw [hl, List.get?_cons_succ]
      exact h2

/-- Claim C4: before any mutation, `handleDeleteStage` computes the fallback
stage — the preceding stage in position order if one exists, else the
following stage if one exists, else none — then reassigns every bill whose
`stageId` equals the deleted stage's id to that fallback id (optimistically,
for both remote outcomes) and removes the stage from the local list. -/
theorem c4_deleteStage (pre post : List Stage) (s : Stage) (bills : List Bill)
    (remoteOk : Bool)
    (hnd : ((pre ++ s :: post).map Stage._id).Nodup) :
    deleteStageFallback (pre ++ s :: post) s._id =
        (match pre.getLast? with
          | some p => some p._id
          | none => post.head?.map Stage._id)
    ∧ (handleDeleteStage s._id (pre ++ s :: post) bills true remoteOk).bills =
        bills.map (fun b =>
          if b.stageId == some s._id then
            { b with stageId :=
                (match pre.getLast? with
                  | some p => some p._id
                  | none => post.head?.map Stage._id) }
          else b)
    ∧ (handleDeleteStage s._id (pre ++ s :: post) bills true true).stages =
        pre ++ post := by
  rw [List.map_append, List.map_cons] at hnd
  obtain ⟨hnp, hns, hdisj⟩ := List.nodup_append.mp hnd
  obtain ⟨hsnot, _⟩ := List.nodup_cons.mp hns
  have hpre : ∀ a ∈ pre, (a._id == s._id) = false := by
    intro a ha
    have hmem : a._id ∈ pre.map Stage._id := List.mem_map_of_mem _ ha
    have hneq : a._id ≠ s._id := by
      intro h
      exact hdisj hmem (by rw [h]; exact List.mem_cons_self _ _)
    simp [hneq]
  have hpost : ∀ a ∈ post, (a._id == s._id) = false := by
    intro a ha
    have hneq : a._id ≠ s._id := by
      intro h
      exact hsnot (by rw [← h]; exact List.mem_map_of_mem Stage._id ha)
    simp [hneq]
  have hfind : findIndexOpt (fun t => t._id == s._id) (pre ++ s :: post) =
      some pre.length :=
    findIndexOpt_append_cons _ s post (by simp) pre hpre
  have hfb : deleteStageFallback (pre ++ s :: post) s._id =
      (match pre.getLast? with
        | some p => some p._id
        | none => post.head?.map Stage._id) := by
    unfold deleteStageFallback
    rw [hfind]
    dsimp only
    cases pre with
    | nil =>
      cases post with
      | nil => simp
      | cons q qs => simp
    | cons p0 pre' =>
      have hgt : (p0 :: pre' : List Stage).length > 0 := by simp
      rw [if_pos hgt, get?_pred_append s post (p0 :: pre') (by simp)]
      rw [List.getLast?_eq_getLast_of_ne_nil (l := p0 :: pre') (by simp)]
      rfl
  refine ⟨hfb, ?_, ?_⟩
  · cases remoteOk <;> simp [handleDeleteStage, hfb]
  · simp only [handleDeleteStage, Bool.not_true, Bool.false_eq_true, if_false, if_true]
    rw [List.filter_append,
      List.filter_eq_self.mpr (fun a ha => by simpa using hpre a ha),
      List.filter_cons]
    simp only [bne_self_eq_false, Bool.false_eq_true, if_false]
    rw [List.filter_eq_self.mpr (fun a ha => by simpa using hpost a ha)]

/-- Claim C4, witness: deleting `B` from stages `[A, B, C]` reattributes
`B`'s record to the preceding stage `A`; deleting the only stage `A`
reattributes its record to none. -/
theorem c4_deleteStage_witness :
    ((([⟨"A", "Stage A"⟩, ⟨"B", "Stage B"⟩, ⟨"C", "Stage C"⟩] : List Stage).map
        Stage._id).Nodup ∧
      (([⟨"A", "Stage A"⟩] : List Stage).map Stage._id).Nodup) ∧
    deleteStageFallback [⟨"A", "Stage A"⟩, ⟨"B", "Stage B"⟩, ⟨"C", "Stage C"⟩] "B" =
        some "A" ∧
      (handleDeleteStage "B" [⟨"A", "Stage A"⟩, ⟨"B", "Stage B"⟩, ⟨"C", "Stage C"⟩]
          [⟨"r1", some "B", none, "inprocess"⟩] true true).bills =
        [⟨"r1", some "A", none, "inprocess"⟩] ∧
      (handleDeleteStage "B" [⟨"A", "Stage A"⟩, ⟨"B", "Stage B"⟩, ⟨"C", "Stage C"⟩]
          [⟨"r1", some "B", none, "inprocess"⟩] true true).stages =
        [⟨"A", "Stage A"⟩, ⟨"C", "Stage C"⟩] ∧
      deleteStageFallback [⟨"A", "Stage A"⟩] "A" = none ∧
      (handleDeleteStage "A" [⟨"A", "Stage A"⟩]
          [⟨"r2", some "A", none, "inprocess"⟩] true true).bills =
        [⟨"r2", none, none, "inprocess"⟩] :=
  ⟨⟨by decide, by decide⟩,
    (c4_deleteStage [⟨"A", "Stage A"⟩] [⟨"C", "Stage C"⟩] ⟨"B", "Stage B"⟩
      [⟨"r1", some "B", none, "inprocess"⟩] true (by decide)).1,
    (c4_deleteStage [⟨"A", "Stage A"⟩] [⟨"C", "Stage C"⟩] ⟨"B", "Stage B"⟩
      [⟨"r1", some "B", none, "inprocess"⟩] true (by decide)).2.1,
    (c4_deleteStage [⟨"A", "Stage A"⟩] [⟨"C", "Stage C"⟩] ⟨"B", "Stage B"⟩
      [⟨"r1", some "B", none, "inprocess"⟩] true (by decide)).2.2,
    (c4_deleteStage [] [] ⟨"A", "Stage A"⟩
      [⟨"r2", some "A", none, "inprocess"⟩] true (by decide)).1,
    (c4_deleteStage [] [] ⟨"A", "Stage A"⟩
      [⟨"r2", some "A", none, "inprocess"⟩] true (by decide)).2.1⟩

/-! ### Claim C5: the per-stage priority sort -/

/-- Claim C5: the per-stage sort of `getBillsForStage` equals the
concatenation of the equal-rank groups of its filtered input, in descending
rank order with each group in input order — the unique stable descending
sort — where the rank is p1 = 3, p2 = 2, p3 = 1, anything else 0, the
priority string is compared after lower-casing (so case-insensitively) and
a missing priority defaults to the rank of `none`. -/
theorem c5_prioritySort :
    (∀ (stages : List Stage) (bills : List Bill) (fltr sid : String),
        getBillsForStage stages bills fltr sid =
          billBuckets (stageFilteredBills stages bills fltr sid))
    ∧ (∀ l : List Bill, sortBills l = billBuckets l)
    ∧ priorityRank none = 0
    ∧ (∀ s : String, priorityRank (some s) = priorities (strToLower s))
    ∧ priorities "p1" = 3 ∧ priorities "p2" = 2 ∧ priorities "p3" = 1
    ∧ (∀ s : String, s ≠ "p1" → s ≠ "p2" → s ≠ "p3" → priorities s = 0) := by
  refine ⟨fun stages bills fltr sid => sortBills_eq_buckets _,
    sortBills_eq_buckets, by decide, ?_, by decide, by decide, by decide, ?_⟩
  · intro s
    by_cases hs : s = ""
    · subst hs
      decide
    · have hbe : (s == "") = false := by simpa using hs
      simp [priorityRank, priorityOrNone, hbe]
  · intro s h1 h2 h3
    unfold priorities
    rw [if_neg (by simpa using h1), if_neg (by simpa using h2),
      if_neg (by simpa using h3)]

/-- Claim C5, witness: `"P1"` and `"p1"` rank identically (both 3), and an
unrecognized priority string ranks 0. -/
theorem c5_prioritySort_witness :
    priorityRank (some "P1") = priorities (strToLower "P1") ∧
      priorityRank (some "p1") = priorities (strToLower "p1") ∧
      priorities "urgent" = 0 :=
  ⟨c5_prioritySort.2.2.2.1 "P1", c5_prioritySort.2.2.2.1 "p1",
    c5_prioritySort.2.2.2.2.2.2.2 "urgent" (by decide) (by decide) (by decide)⟩

/-! ### Claim C6: `addStage` validation and non-optimistic append -/

/-- Claim C6: `handleAddStage` with a cancelled or empty name aborts before
any effect (no local stage added, no request sent); with a truthy name it
issues the request and appends the server-returned stage to the local list
only on success, leaving the list untouched on failure. -/
theorem c6_addStage :
    (∀ (stages : List Stage) (remote : Option Stage),
        handleAddStage none stages remote = ⟨stages, false, []⟩)
    ∧ (∀ (stages : List Stage) (remote : Option Stage),
        handleAddStage (some "") stages remote = ⟨stages, false, []⟩)
    ∧ (∀ (name : Option String) (stages : List Stage) (srv : Stage),
        truthy name = true →
        handleAddStage name stages (some srv) =
          ⟨stages ++ [srv], true,
            [⟨"success", "Created!", "New stage has been added."⟩]⟩)
    ∧ (∀ (name : Option String) (stages : List Stage),
        truthy name = true →
        handleAddStage name stages none =
          ⟨stages, true, [⟨"error", "Error!", "Failed to create stage."⟩]⟩) := by
  refine ⟨fun stages remote => rfl, fun stages remote => rfl, ?_, ?_⟩
  · intro name stages srv hname
    simp [handleAddStage, hname]
  · intro name stages hname
    simp [handleAddStage, hname]

/-- Claim C6, witness: the addStage theorem applied to the truthy name
`"Follow up"`, for a successful and for a failing remote create. -/
theorem c6_addStage_witness :
    truthy (some "Follow up") = true ∧
      handleAddStage (some "Follow up") [] (some ⟨"srv1", "Follow up"⟩) =
        ⟨[⟨"srv1", "Follow up"⟩], true,
          [⟨"success", "Created!", "New stage has been added."⟩]⟩ ∧
      handleAddStage (some "Follow up") [] none =
        ⟨[], true, [⟨"error", "Error!", "Failed to create stage."⟩]⟩ :=
  ⟨by decide,
    c6_addStage.2.2.1 (some "Follow up") [] ⟨"srv1", "Follow up"⟩ (by decide),
    c6_addStage.2.2.2 (some "Follow up") [] (by decide)⟩

/-! ### Claim C7: the auto-scroll speed formula -/

/-- Claim C7: with threshold T = 250 and maximum M = 25, assuming viewport
width W > 2T, the speed computed on a pointer move during an active drag is
−M·(T−x)/T for x < T, M·(x−(W−T))/T for x > W−T, and 0 between; in
particular x = T yields 0 and x = 0 yields −M = −25. -/
theorem c7_scrollSpeed (x W sp : ℚ) (hW : 2 * 250 < W) :
    (x < 250 → handleMouseMove true true x W sp = -(25 * (250 - x) / 250))
    ∧ (x > W - 250 → handleMouseMove true true x W sp = 25 * (x - (W - 250)) / 250)
    ∧ (250 ≤ x → x ≤ W - 250 → handleMouseMove true true x W sp = 0)
    ∧ handleMouseMove true true 250 W sp = 0
    ∧ handleMouseMove true true 0 W sp = -25 := by
  refine ⟨?_, ?_, ?_, ?_, ?_⟩
  · intro hx
    simp only [handleMouseMove, Bool.not_true, Bool.false_or, Bool.false_eq_true,
      if_false, if_pos hx]
    ring
  · intro hx
    have hxge : ¬ x < 250 := by linarith
    simp only [handleMouseMove, Bool.not_true, Bool.false_or, Bool.false_eq_true,
      if_false, if_neg hxge, if_pos hx]
    ring
  · intro hx1 hx2
    have h1 : ¬ x < 250 := by linarith
    have h2 : ¬ x > W - 250 := by linarith
    simp only [handleMouseMove, Bool.not_true, Bool.false_or, Bool.false_eq_true,
      if_false, if_neg h1, if_neg h2]
  · have h1 : ¬ (250 : ℚ) < 250 := by norm_num
    have h2 : ¬ (250 : ℚ) > W - 250 := by linarith
    simp only [handleMouseMove, Bool.not_true, Bool.false_or, Bool.false_eq_true,
      if_false, if_neg h1, if_neg h2]
  · have h1 : (0 : ℚ) < 250 := by norm_num
    simp only [handleMouseMove, Bool.not_true, Bool.false_or, Bool.false_eq_true,
      if_false, if_pos h1]
    norm_num

/-- Claim C7, witness: the speed theorem applied at pointer x = 100 in a
1000-wide viewport. -/
theorem c7_scrollSpeed_witness :
    ((100 : ℚ) < 250 ∧ (2 * 250 : ℚ) < 1000) ∧
      handleMouseMove true true 100 1000 7 = -(25 * (250 - 100) / 250) ∧
      handleMouseMove true true 250 1000 7 = 0 ∧
      handleMouseMove true true 0 1000 7 = -25 :=
  ⟨⟨by norm_num, by norm_num⟩,
    (c7_scrollSpeed 100 1000 7 (by norm_num)).1 (by norm_num),
    (c7_scrollSpeed 250 1000 7 (by norm_num)).2.2.2.1,
    (c7_scrollSpeed 0 1000 7 (by norm_num)).2.2.2.2⟩

/-! ### Claim C8: pointer moves while idle, and the per-frame loop -/

/-- Claim C8, counterexample: while the drag-active flag is false, a
pointer-move event does NOT recompute and store the scroll-speed signal:
the handler returns early and the stored speed 5 survives a move to x = 0,
whereas the same move during a drag stores −25. -/
theorem c8_counterexample :
    (mouseMoveStep 0 1000 ⟨false, true, 5, 0⟩).autoScrollSpeed = 5 ∧
      (mouseMoveStep 0 1000 ⟨true, true, 5, 0⟩).autoScrollSpeed = -25 := by
  constructor
  · rfl
  · show handleMouseMove true true 0 1000 5 = -25
    norm_num [handleMouseMove]

/-- Claim C8 (amended): while the drag-active flag is false a pointer-move
event leaves the whole shared state — including the stored scroll speed —
unchanged (the handler returns early instead of recomputing), and no
animation frame changes the scroll offset; the offset changes only on a
frame where the flag is true, the container exists and the stored speed is
nonzero, and then by exactly that speed. -/
theorem c8_idleAutoScroll :
    (∀ (x W : ℚ) (st : AutoScrollState), st.isDragging = false →
        mouseMoveStep x W st = st)
    ∧ (∀ st : AutoScrollState, st.isDragging = false → handleAutoScroll st = st)
    ∧ (∀ st : AutoScrollState, (handleAutoScroll st).scrollLeft ≠ st.scrollLeft →
        st.isDragging = true ∧ st.hasContainer = true ∧ st.autoScrollSpeed ≠ 0)
    ∧ (∀ st : AutoScrollState, st.isDragging = true → st.hasContainer = true →
        st.autoScrollSpeed ≠ 0 →
        (handleAutoScroll st).scrollLeft = st.scrollLeft + st.autoScrollSpeed) := by
  refine ⟨?_, ?_, ?_, ?_⟩
  · intro x W st h
    cases st
    simp_all [mouseMoveStep, handleMouseMove]
  · intro st h
    cases st
    simp_all [handleAutoScroll]
  · intro st h
    by_cases hg : (st.isDragging && st.hasContainer && st.autoScrollSpeed != 0) = true
    · simpa [and_assoc] using hg
    · exfalso
      apply h
      unfold handleAutoScroll
      rw [if_neg hg]
  · intro st h1 h2 h3
    have hg : (st.isDragging && st.hasContainer && st.autoScrollSpeed != 0) = true := by
      simp [h1, h2, h3]
    unfold handleAutoScroll
    rw [if_pos hg]

/-- Claim C8, witness: the amended theorem applied to an idle pointer move
and to one active frame. -/
theorem c8_idleAutoScroll_witness :
    ((⟨false, true, 5, 0⟩ : AutoScrollState).isDragging = false ∧
      (⟨true, true, 5, 0⟩ : AutoScrollState).isDragging = true ∧
      (⟨true, true, 5, 0⟩ : AutoScrollState).autoScrollSpeed ≠ 0) ∧
    mouseMoveStep 0 1000 ⟨false, true, 5, 0⟩ = ⟨false, true, 5, 0⟩ ∧
      (handleAutoScroll ⟨true, true, 5, 0⟩).scrollLeft =
        (⟨true, true, 5, 0⟩ : AutoScrollState).scrollLeft +
          (⟨true, true, 5, 0⟩ : AutoScrollState).autoScrollSpeed :=
  ⟨⟨rfl, rfl, by norm_num⟩,
    c8_idleAutoScroll.1 0 1000 ⟨false, true, 5, 0⟩ rfl,
    c8_idleAutoScroll.2.2.2 ⟨true, true, 5, 0⟩ rfl rfl (by norm_num)⟩

/-! ### Claim C9: case-sensitive filter versus case-insensitive sort -/

/-- Claim C9: the global priority filter compares with case-sensitive
equality while the sorter ranks case-insensitively: a record whose priority
differs from the active filter value only in letter case is excluded from
every stage's list under that filter, although the sorter gives it the very
rank of the filter value, and it is present again under the `all` filter in
the stage it matches. -/
theorem c9_filterCase (stages : List Stage) (bills : List Bill) (b : Bill)
    (p fltr : String)
    (hfl : fltr = "p1" ∨ fltr = "p2" ∨ fltr = "p3")
    (hpri : b.priority = some p) (hne : p ≠ fltr)
    (hcase : strToLower p = strToLower fltr) :
    (∀ sid : String, b ∉ getBillsForStage stages bills fltr sid)
    ∧ priorityRank b.priority = priorityRank (some fltr)
    ∧ (∀ sid : String, b ∈ bills → stageMatch stages sid b = true →
        b ∈ getBillsForStage stages bills "all" sid) := by
  have hflall : (fltr != "all") = true := by
    rcases hfl with h | h | h <;> subst h <;> decide
  have hp0 : p ≠ "" := by
    intro h
    subst h
    rcases hfl with h | h | h <;> subst h <;> exact absurd hcase (by decide)
  have hf0 : fltr ≠ "" := by
    rcases hfl with h | h | h <;> subst h <;> decide
  refine ⟨?_, ?_, ?_⟩
  · intro sid hmem
    unfold getBillsForStage stageFilteredBills at hmem
    rw [hflall] at hmem
    rw [mem_sortBills] at hmem
    simp only [if_true, List.mem_filter] at hmem
    have hpf : (b.priority == some fltr) = true := hmem.2
    rw [hpri] at hpf
    exact hne (by simpa using hpf)
  · rw [hpri]
    unfold priorityRank priorityOrNone
    have hbe : (p == "") = false := by simpa using hp0
    have hbe2 : (fltr == "") = false := by simpa using hf0
    simp [hbe, hbe2, hcase]
  · intro sid hb hsm
    unfold getBillsForStage stageFilteredBills
    rw [mem_sortBills]
    simp only [bne_self_eq_false, Bool.false_eq_true, if_false]
    exact List.mem_filter.mpr ⟨hb, hsm⟩

/-- Claim C9, witness: a record with priority `"P2"` under the `"p2"`
filter: excluded from stage `s1`'s list, ranked like `"p2"` (rank 2), and
present in `s1`'s list under `all`. -/
theorem c9_filterCase_witness :
    (("p2" = "p1" ∨ "p2" = "p2" ∨ "p2" = "p3") ∧
      (⟨"r1", some "s1", some "P2", "inprocess"⟩ : Bill).priority = some "P2" ∧
      "P2" ≠ "p2" ∧ strToLower "P2" = strToLower "p2") ∧
    ((∀ sid : String, (⟨"r1", some "s1", some "P2", "inprocess"⟩ : Bill) ∉
        getBillsForStage [⟨"s1", "A"⟩]
          [⟨"r1", some "s1", some "P2", "inprocess"⟩] "p2" sid)
    ∧ priorityRank (⟨"r1", some "s1", some "P2", "inprocess"⟩ : Bill).priority =
        priorityRank (some "p2")
    ∧ (∀ sid : String,
        (⟨"r1", some "s1", some "P2", "inprocess"⟩ : Bill) ∈
            [(⟨"r1", some "s1", some "P2", "inprocess"⟩ : Bill)] →
          stageMatch [⟨"s1", "A"⟩] sid ⟨"r1", some "s1", some "P2", "inprocess"⟩ = true →
          (⟨"r1", some "s1", some "P2", "inprocess"⟩ : Bill) ∈
            getBillsForStage [⟨"s1", "A"⟩]
              [⟨"r1", some "s1", some "P2", "inprocess"⟩] "all" sid)) :=
  ⟨⟨by decide, by decide, by decide, by decide⟩,
    c9_filterCase [⟨"s1", "A"⟩] [⟨"r1", some "s1", some "P2", "inprocess"⟩]
      ⟨"r1", some "s1", some "P2", "inprocess"⟩ "P2" "p2"
      (by decide) (by decide) (by decide) (by decide)⟩

/-! ### Claim C10: remote-first `updateStatus` versus optimistic
`updatePriority` -/

/-- Claim C10: `updateStatus` is remote-first — on remote failure the bill
store and the selected-bill state are both completely unchanged, only an
error notification appears — whereas `updatePriority` applies its local
change regardless of the remote outcome and leaves it in place on failure,
as the concrete instance shows. -/
theorem c10_statusRemoteFirst :
    (∀ (id st : String) (bills : List Bill) (sel : Option Bill),
        updateStatus id st bills sel false =
          ⟨bills, sel, [⟨"error", "Error", "Could not update status"⟩]⟩)
    ∧ (∀ (id p : String) (bills : List Bill),
        (updatePriority id p bills false).1 =
          bills.map (fun b => if b._id == id then { b with priority := some p } else b))
    ∧ (∀ (id p : String) (bills : List Bill),
        (updatePriority id p bills true).1 = (updatePriority id p bills false).1)
    ∧ (updatePriority "r1" "p1" [⟨"r1", some "s1", none, "inprocess"⟩] false).1 ≠
        [⟨"r1", some "s1", none, "inprocess"⟩] := by
  refine ⟨fun id st bills sel => rfl, fun id p bills => rfl,
    fun id p bills => rfl, by decide⟩

end FollowUp
